import Mathlib

/-
Verification of the FreeSWITCH real-time metrics poller
(src/RealTimeMetrics.py) against its natural-language specification.

The Python source is shallowly embedded:
* strings are `List Char` (via `String.data`) where character-level work
  happens, and `String` where only whole-value comparison happens;
* Python floats are modelled as exact rationals (`Rat`);
* Python exceptions are modelled as `Except PyErr`, where `PyErr`
  records the exception class name and message;
* `dict` rows produced by `csv.DictReader` for the three fixed table
  schemas are modelled as structures with one string field per column
  (the commands always return these headers, so every key is present);
* calls to `time.time()` are modelled by an explicit `now : Rat`
  parameter (the source captures one timestamp per cycle and also makes
  fresh calls inside `calculate_duration_since_last_status_change`; the
  distinction is irrelevant to every property below, so a single `now`
  is passed).
-/

/-- A Python exception value: exception class name and message. -/
structure PyErr where
  cls : String
  msg : String
  deriving DecidableEq, Repr

/-- Python whitespace as used by `str.strip()` (ASCII subset). -/
def isPySpace (c : Char) : Bool :=
  c = ' ' || c = '\t' || c = '\n' || c = '\r' || c = '\x0b' || c = '\x0c'

/-- Python `str.strip()`: drop leading and trailing whitespace. -/
def pyStrip (l : List Char) : List Char :=
  ((l.dropWhile isPySpace).reverse.dropWhile isPySpace).reverse

/-- Value of a decimal digit string (most significant first). -/
def digitsToNat (l : List Char) : Nat :=
  l.foldl (fun acc c => acc * 10 + (c.toNat - 48)) 0

/-- Python `int(s)` on a string: strip, optional sign, decimal digits;
`none` models the `ValueError` raised on any other input. -/
def pyIntChars (l : List Char) : Option Int :=
  match pyStrip l with
  | '-' :: ds =>
    if ds ≠ [] ∧ ds.all Char.isDigit then some (-(digitsToNat ds : Int)) else none
  | '+' :: ds =>
    if ds ≠ [] ∧ ds.all Char.isDigit then some ((digitsToNat ds : Int)) else none
  | ds =>
    if ds ≠ [] ∧ ds.all Char.isDigit then some ((digitsToNat ds : Int)) else none

/-- Python `int(s)` on a `String`. -/
def pyInt (s : String) : Option Int :=
  pyIntChars s.data

/-- Python `int(s)` as a fallible computation (raises `ValueError`). -/
def pyIntE (s : String) : Except PyErr Int :=
  match pyInt s with
  | some n => Except.ok n
  | none => Except.error ⟨"ValueError", "invalid literal for int"⟩

/-- Python substring test `needle in hay`. -/
def containsSub (needle : List Char) : List Char → Bool
  | [] => needle.isEmpty
  | c :: rest => needle.isPrefixOf (c :: rest) || containsSub needle rest

/-- Split a character list at the first occurrence of the two-character
separator `"\n\n"`, as `s.split("\n\n", 1)` does; `none` when the
separator does not occur (Python returns a one-element list and
indexing `[1]` raises `IndexError`). -/
def splitOnceOn2NL : List Char → Option (List Char × List Char)
  | [] => none
  | [_] => none
  | c :: d :: rest =>
    if c = '\n' ∧ d = '\n' then some ([], rest)
    else
      match splitOnceOn2NL (d :: rest) with
      | some (a, b) => some (c :: a, b)
      | none => none

/-- Whether a character list contains two consecutive newlines. -/
def hasDoubleNL : List Char → Bool
  | [] => false
  | [_] => false
  | c :: d :: rest =>
    if c = '\n' ∧ d = '\n' then true else hasDoubleNL (d :: rest)

/-- Split a character list on every occurrence of `sep`
(the splitting `csv` performs on lines, specialised to one character). -/
def splitOnChar (sep : Char) : List Char → List (List Char)
  | [] => [[]]
  | c :: rest =>
    let r := splitOnChar sep rest
    if c = sep then [] :: r
    else
      match r with
      | [] => [[c]]
      | h :: t => (c :: h) :: t

/-- Join lines with single newlines (used to build concrete frame
bodies in statements; inverse of `splitOnChar '\n'` on newline-free
lines). -/
def joinLines : List (List Char) → List Char
  | [] => []
  | [l] => l
  | l :: ls => l ++ '\n' :: joinLines ls

/-- Concatenation of a sequence of received socket chunks. -/
def concatChunks : List (List Char) → List Char
  | [] => []
  | c :: rest => c ++ concatChunks rest

/-- The first match of `re.search("Content-Length: (\d+)", s)`:
scan left to right for the literal `"Content-Length: "` followed by at
least one digit, and read the maximal digit run. -/
def findCL : List Char → Option Nat
  | [] => none
  | c :: rest =>
    if ("Content-Length: ").data.isPrefixOf (c :: rest) then
      let ds := ((c :: rest).drop 16).takeWhile Char.isDigit
      if ds.isEmpty then findCL rest else some (digitsToNat ds)
    else findCL rest

/-- Outcome of `FreeSWITCHClient._recv_response`: a returned frame, the
socket timeout raised by `recv` once no more data arrives (modelled as
exhaustion of the chunk list), or the uncaught `IndexError` raised by
`response.split("\n\n", 1)[1]` when the separator is missing. -/
inductive RecvResult where
  | frame (response : List Char)
  | timeout
  | indexError
  deriving DecidableEq, Repr

/-- `FreeSWITCHClient._recv_response`: repeatedly `recv` a chunk and
append it; search for `Content-Length` until found; break once the
portion after the first blank line is at least `content_length` long —
but only when `content_length` is truthy (`if content_length and ...`),
so a parsed length of `0` never satisfies the guard. Returns the whole
accumulated response. -/
def recvLoop (response : List Char) (content_length : Option Nat) :
    List (List Char) → RecvResult
  | [] => RecvResult.timeout
  | part :: rest =>
    let response2 := response ++ part
    let cl :=
      match content_length with
      | some n => some n
      | none => findCL response2
    match cl with
    | some n =>
      if n ≠ 0 then
        match splitOnceOn2NL response2 with
        | some (_, body) =>
          if n ≤ body.length then RecvResult.frame response2
          else recvLoop response2 (some n) rest
        | none => RecvResult.indexError
      else recvLoop response2 (some n) rest
    | none => recvLoop response2 none rest

/-- A parsed table row: field name / field value pairs in column order,
as produced by `csv.DictReader` (modelled as an association list). -/
abbrev RawRecord := List (List Char × List Char)

/-- `FreeSWITCHClient.parse_response`: split off the frame header at the
first blank line (`IndexError` becomes `ValueError("Invalid response
format")`), strip the body, and read it as pipe-delimited rows with the
first row as field names.  Empty lines yield empty csv rows, which
`DictReader` skips; other rows are zipped with the field names
(well-formed tables have equal-length rows, which is all the theorems
below use). -/
def parse_response (response : List Char) : Except PyErr (List RawRecord) :=
  match splitOnceOn2NL response with
  | none => Except.error ⟨"ValueError", "Invalid response format"⟩
  | some (_, rest) =>
    let data := pyStrip rest
    match splitOnChar '\n' data with
    | [] => Except.ok []
    | header :: rows =>
      Except.ok (rows.filterMap (fun r =>
        if r.isEmpty then none
        else some ((splitOnChar '|' header).zip (splitOnChar '|' r))))

/-- `parse_response` followed by the caller's unconditional `.pop()` of
the trailing synthetic total row (lines 96-103 of the source);
`.pop()` on an empty list raises `IndexError`. -/
def parseTableDropTotal (response : List Char) : Except PyErr (List RawRecord) :=
  match parse_response response with
  | Except.error e => Except.error e
  | Except.ok rows =>
    if rows.isEmpty then Except.error ⟨"IndexError", "pop from empty list"⟩
    else Except.ok rows.dropLast

/-- `FreeSWITCHClient.connect`, after the TCP connection succeeds: the
first received frame must contain `Content-Type: auth/request`
(otherwise `ConnectionError("Failed to connect to FreeSWITCH")`), and
the reply to the `auth` command must contain `Reply-Text: +OK`
(otherwise `ConnectionError("Failed to authenticate with FreeSWITCH")`).
Both failures use the same exception class. -/
def connect (auth_response reply : String) : Except PyErr Unit :=
  if containsSub ("Content-Type: auth/request").data auth_response.data then
    if containsSub ("Reply-Text: +OK").data reply.data then Except.ok ()
    else Except.error ⟨"ConnectionError", "Failed to authenticate with FreeSWITCH"⟩
  else Except.error ⟨"ConnectionError", "Failed to connect to FreeSWITCH"⟩

/-- Python `dict` assignment `d[k] = v` on an insertion-ordered dict:
replace the value at the first matching key, else append. -/
def dictInsertStr : List (String × String) → String → String → List (String × String)
  | [], k, v => [(k, v)]
  | p :: rest, k, v => if p.1 = k then (k, v) :: rest else p :: dictInsertStr rest k v

/-- Loop body of `FreeSWITCHClient.execute_multiple_commands`.  The
behaviour of `self.execute(command)` (a socket interaction) is abstracted
by `env`: `Except.ok r` when the command returns response `r`,
`Except.error e` when it raises an exception whose `str()` is `e`.  The
`try/except Exception` stores `str(e)` and continues with the next
command. -/
def emcGo (env : String → Except String String) :
    List (String × String) → List String → List (String × String)
  | results, [] => results
  | results, c :: rest =>
    let v :=
      match env c with
      | Except.ok r => r
      | Except.error e => e
    emcGo env (dictInsertStr results c v) rest

/-- `FreeSWITCHClient.execute_multiple_commands`: fold the commands into
an (insertion-ordered) result dict, never raising. -/
def execute_multiple_commands (env : String → Except String String)
    (commands : List String) : List (String × String) :=
  emcGo env [] commands

/-- The value stored for one command: the response on success, `str(e)`
on failure. -/
def commandOutcome (env : String → Except String String) (c : String) : String :=
  match env c with
  | Except.ok r => r
  | Except.error e => e

/-- One row of `callcenter_config agent list` (the columns the program
reads; `csv.DictReader` guarantees every header key is present, with the
raw string value of that cell). -/
structure AgentRecord where
  name : String
  type : String
  status : String
  state : String
  last_bridge_start : String
  last_bridge_end : String
  last_offered_call : String
  last_status_change : String
  no_answer_count : String
  calls_answered : String
  deriving DecidableEq, Repr

/-- One row of `callcenter_config tier list`. -/
structure TierRecord where
  queue : String
  agent : String
  level : String
  position : String
  deriving DecidableEq, Repr

/-- One row of `callcenter_config queue list`. -/
structure QueueRecord where
  name : String
  calls_answered : String
  calls_abandoned : String
  deriving DecidableEq, Repr

/-- The `"AHT"` field of a queue-metrics dict: it starts as the integer
`0`, accumulates integer bridge durations, and is replaced by a
formatted `HH:MM:SS` string only when `aht_agent_count > 0`.  The two
arms are distinguishable JSON values (number vs string). -/
inductive AHTField where
  | secs (n : Int)
  | fmt (s : String)
  deriving DecidableEq, Repr

/-- One entry of the per-queue snapshot, with the fields in the order of
the `defaultdict` initialiser. -/
structure QueueMetrics where
  Name : String
  Online : Int
  InaQueueCall : Int
  OnBreak : Int
  ACW : Int
  LoggedOut : Int
  Available : Int
  Idle : Int
  Waiting : Int
  Receiving : Int
  Handled : Int
  Abandoned : Int
  AHT : AHTField
  SL60 : Rat
  deriving DecidableEq, Repr

/-- The `defaultdict` default: every counter 0, `Name` the empty string,
`AHT` the integer 0, `SL60` 0. -/
def initQueueMetrics : QueueMetrics :=
  ⟨"", 0, 0, 0, 0, 0, 0, 0, 0, 0, 0, 0, AHTField.secs 0, 0⟩

/-- Round half to even to an integer (Python `round` on the exact
rational value; floats are modelled as exact rationals). -/
def roundHalfEven (x : Rat) : Int :=
  let f : Int := Int.floor x
  let r : Rat := x - (f : Rat)
  if r < 1/2 then f
  else if 1/2 < r then f + 1
  else if f % 2 = 0 then f else f + 1

/-- Python `round(x, 2)`. -/
def pyRound2 (x : Rat) : Rat :=
  ((roundHalfEven (x * 100) : Int) : Rat) / 100

/-- The SL60 computation of the queue loop: `0` unless
`Handled + Abandoned > 0`, else `round(Handled * 100 / total, 2)`. -/
def sl60 (handled abandoned : Int) : Rat :=
  if handled + abandoned > 0 then
    pyRound2 (((handled : Rat) * 100) / ((handled : Rat) + (abandoned : Rat)))
  else 0

/-- Python float floor division `a // b` on rationals. -/
def pyFloorDivQ (a b : Rat) : Rat :=
  ((Int.floor (a / b) : Int) : Rat)

/-- Python float modulo `a % b` on rationals. -/
def pyModQ (a b : Rat) : Rat :=
  a - b * ((Int.floor (a / b) : Int) : Rat)

/-- Python `int()` on a rational: truncate toward zero. -/
def truncQ (q : Rat) : Int :=
  if 0 ≤ q then Int.floor q else -(Int.floor (-q))

/-- The f-string format `{n:02}`: pad a one-digit value with a leading
zero. -/
def pad2 (n : Int) : String :=
  if 0 ≤ n ∧ n < 10 then "0" ++ toString n else toString n

/-- `convert_seconds_to_hhmmss`: floor-divide into hours, minutes and
seconds and zero-pad each component (hours unbounded). -/
def convert_seconds_to_hhmmss (seconds : Rat) : String :=
  let hours := pyFloorDivQ seconds 3600
  let minutes := pyFloorDivQ (pyModQ seconds 3600) 60
  let secs := pyModQ seconds 60
  pad2 (truncQ hours) ++ ":" ++ pad2 (truncQ minutes) ++ ":" ++ pad2 (truncQ secs)

/-- `calculate_duration_since_last_status_change` (the fresh
`time.time()` call is modelled by the cycle timestamp `now`). -/
def calculate_duration_since_last_status_change (now : Rat)
    (last_status_change_epoch : Int) : String :=
  convert_seconds_to_hhmmss (now - (last_status_change_epoch : Rat))

/-- Python dict assignment `combined_data[k] = v`: replace the value at
the first matching key, else append (insertion order preserved). -/
def dictSet : List (String × QueueMetrics) → String → QueueMetrics →
    List (String × QueueMetrics)
  | [], k, v => [(k, v)]
  | p :: rest, k, v => if p.1 = k then (k, v) :: rest else p :: dictSet rest k v

/-- `combined_data[k]` on the defaultdict: the stored value, or the
default entry. -/
def dictGet (d : List (String × QueueMetrics)) (k : String) : QueueMetrics :=
  match d.find? (fun p => p.1 = k) with
  | some p => p.2
  | none => initQueueMetrics

/-- State of the queue loop: the `combined_data` defaultdict and the
keys of the dict objects appended to `combined_data_list` (the list
holds references to the dict entries, so the serialised output reads the
final dict state — see `queuePhase`). -/
structure QPState where
  dict : List (String × QueueMetrics)
  keys : List String
  deriving DecidableEq, Repr

/-- Lines 139-145 of the source: seed a queue entry with `Handled`,
`Abandoned` and `SL60`. -/
def seedQM (qm : QueueMetrics) (h ab : Int) : QueueMetrics :=
  { qm with Handled := h, Abandoned := ab, SL60 := sl60 h ab }

/-- Lines 153-164: one resolved agent-tier pair increments exactly the
counters whose predicate holds (the status/state predicates are
evaluated independently), and sets `Name` to the queue name. -/
def applyAgentCounters (qname : String) (qm : QueueMetrics) (a : AgentRecord) :
    QueueMetrics :=
  { qm with
    Name := qname
    Online := qm.Online + (if a.status ≠ "Logged Out" then 1 else 0)
    InaQueueCall := qm.InaQueueCall + (if a.state = "In a queue call" then 1 else 0)
    OnBreak := qm.OnBreak + (if a.status = "On Break" then 1 else 0)
    ACW := qm.ACW + (if a.status = "Available (On Demand)" then 1 else 0)
    LoggedOut := qm.LoggedOut + (if a.status = "Logged Out" then 1 else 0)
    Available := qm.Available +
      (if a.status = "Available" ∧ a.state ≠ "In a queue call" ∧ a.state ≠ "Receiving"
       then 1 else 0)
    Idle := qm.Idle + (if a.state = "Idle" then 1 else 0)
    Waiting := qm.Waiting + (if a.state = "Waiting" ∧ a.status = "Available" then 1 else 0)
    Receiving := qm.Receiving + (if a.state = "Receiving" then 1 else 0) }

/-- Lines 166-173: the AHT accumulation `try` block.  When both bridge
fields parse as integers the difference is added to the `"AHT"` dict
value and the shared counter is incremented; a `ValueError` is caught
and skipped.  If a previous pass over the same queue name already
replaced `"AHT"` by a formatted string, the `+=` raises an uncaught
`TypeError`. -/
def applyAgentAHT (qm : QueueMetrics) (cnt : Nat) (a : AgentRecord) :
    Except PyErr (QueueMetrics × Nat) :=
  match pyInt a.last_bridge_start, pyInt a.last_bridge_end with
  | some s, some e =>
    match qm.AHT with
    | AHTField.secs n => Except.ok ({ qm with AHT := AHTField.secs (n + (e - s)) }, cnt + 1)
    | AHTField.fmt _ => Except.error ⟨"TypeError", "unsupported operand type"⟩
  | _, _ => Except.ok (qm, cnt)

/-- Lines 149-173: one tier of the current queue.  The referenced agent
is resolved by first name match against the agent table; an unresolved
tier is skipped. -/
def processTier (qname : String) (agents : List AgentRecord)
    (st : QueueMetrics × Nat) (t : TierRecord) : Except PyErr (QueueMetrics × Nat) :=
  match agents.find? (fun a => a.name = t.agent) with
  | none => Except.ok st
  | some a => applyAgentAHT (applyAgentCounters qname st.1 a) st.2 a

/-- The `for tier in queue_tiers` loop. -/
def foldTiers (qname : String) (agents : List AgentRecord) :
    QueueMetrics × Nat → List TierRecord → Except PyErr (QueueMetrics × Nat)
  | st, [] => Except.ok st
  | st, t :: ts =>
    match processTier qname agents st t with
    | Except.error e => Except.error e
    | Except.ok st2 => foldTiers qname agents st2 ts

/-- Lines 176-178: replace the accumulated AHT sum by the formatted
average when at least one agent contributed. -/
def finishAHT (qm : QueueMetrics) (cnt : Nat) : Except PyErr QueueMetrics :=
  if 0 < cnt then
    match qm.AHT with
    | AHTField.secs n =>
      Except.ok { qm with AHT := AHTField.fmt (convert_seconds_to_hhmmss ((n : Rat) / (cnt : Rat))) }
    | AHTField.fmt _ => Except.error ⟨"TypeError", "unsupported operand type"⟩
  else Except.ok qm

/-- Lines 134-184: the body of `for queue in queues`.  A queue is
processed only when some tier references it; the per-queue agent counter
starts at 0 (it is reset after each processed queue, and initialised to
0 before the loop). -/
def processQueue (agents : List AgentRecord) (tiers : List TierRecord)
    (st : QPState) (q : QueueRecord) : Except PyErr QPState :=
  if tiers.any (fun t => t.queue = q.name) then
    match pyIntE q.calls_answered with
    | Except.error e => Except.error e
    | Except.ok h =>
      match pyIntE q.calls_abandoned with
      | Except.error e => Except.error e
      | Except.ok ab =>
        match foldTiers q.name agents (seedQM (dictGet st.dict q.name) h ab, 0)
            (tiers.filter (fun t => t.queue = q.name)) with
        | Except.error e => Except.error e
        | Except.ok (qm1, cnt) =>
          match finishAHT qm1 cnt with
          | Except.error e => Except.error e
          | Except.ok qm2 =>
            Except.ok ⟨dictSet st.dict q.name qm2, st.keys ++ [q.name]⟩
  else Except.ok st

/-- The `for queue in queues` loop with exception propagation. -/
def foldQueues (agents : List AgentRecord) (tiers : List TierRecord) :
    QPState → List QueueRecord → Except PyErr QPState
  | st, [] => Except.ok st
  | st, q :: qs =>
    match processQueue agents tiers st q with
    | Except.error e => Except.error e
    | Except.ok st2 => foldQueues agents tiers st2 qs

/-- Lines 110-187: the queue-metrics pass.  `combined_data_list` holds
references into `combined_data`, so the serialised snapshot is the final
dict value of each appended key, in append order. -/
def queuePhase (agents : List AgentRecord) (tiers : List TierRecord)
    (queues : List QueueRecord) : Except PyErr (List QueueMetrics) :=
  match foldQueues agents tiers ⟨[], []⟩ queues with
  | Except.error e => Except.error e
  | Except.ok st => Except.ok (st.keys.map (dictGet st.dict))

/-- A JSON value that is either a string or a number (the
`Statusduration` field is a formatted string or the literal `0`). -/
inductive StrOrNum where
  | str (s : String)
  | num (n : Int)
  deriving DecidableEq, Repr

/-- One entry of the per-agent snapshot. -/
structure AgentMetrics where
  Name : String
  Type' : String
  Status : String
  Statusduration : StrOrNum
  Capacity : Int
  Availability : Int
  contact_state : String
  Contact_state_Duration : String
  Queue : String
  ACW : String
  Agent_non_response : String
  Calls_handled : String
  LCHT : String
  Level : String
  Position : String
  deriving DecidableEq, Repr

/-- Lines 198-246: the body of `for agent in agents`.  The four
`int(agent.get(..., 0))` conversions run before the tier-membership
check, so a non-numeric value raises an uncaught `ValueError`; agents
with no tier membership yield no entry. -/
def processAgent (now : Rat) (tiers : List TierRecord) (a : AgentRecord) :
    Except PyErr (Option AgentMetrics) :=
  match pyIntE a.last_bridge_start with
  | Except.error e => Except.error e
  | Except.ok lbs =>
    match pyIntE a.last_bridge_end with
    | Except.error e => Except.error e
    | Except.ok lbe =>
      match pyIntE a.last_offered_call with
      | Except.error e => Except.error e
      | Except.ok loc =>
        match pyIntE a.last_status_change with
        | Except.error e => Except.error e
        | Except.ok lsc =>
          let agent_queues := (tiers.filter (fun t => t.agent = a.name)).map (fun t => t.queue)
          let lp := (tiers.filter (fun t => t.agent = a.name)).map (fun t => (t.level, t.position))
          if agent_queues.isEmpty then Except.ok none
          else Except.ok (some
            { Name := a.name
              Type' := a.type
              Status := a.status
              Statusduration :=
                if a.last_status_change ≠ "0" then
                  StrOrNum.str (calculate_duration_since_last_status_change now lsc)
                else StrOrNum.num 0
              Capacity := 1
              Availability := if a.status = "Available" then 1 else 0
              contact_state :=
                if a.state = "In a queue call" then "In a queue call"
                else if a.state = "Receiving" then "Receiving"
                else if a.status = "Available (On Demand)" then "Available (On Demand)"
                else "-"
              Contact_state_Duration :=
                if a.state = "Receiving" then convert_seconds_to_hhmmss (now - (loc : Rat))
                else if a.state = "In a queue call" then convert_seconds_to_hhmmss (now - (lbs : Rat))
                else if a.status = "Available (On Demand)" then
                  calculate_duration_since_last_status_change now lsc
                else "-"
              Queue := String.intercalate ", " agent_queues
              ACW :=
                if a.status = "Available (On Demand)" then
                  calculate_duration_since_last_status_change now lsc
                else "-"
              Agent_non_response := a.no_answer_count
              Calls_handled := a.calls_answered
              LCHT :=
                if a.state ≠ "In a queue call" then
                  convert_seconds_to_hhmmss ((lbe : Rat) - (lbs : Rat))
                else "-"
              Level := String.intercalate ", " (lp.map (fun p => p.1))
              Position := String.intercalate ", " (lp.map (fun p => p.2)) })

/-- The `for agent in agents` loop with exception propagation. -/
def foldAgents (now : Rat) (tiers : List TierRecord) :
    List AgentMetrics → List AgentRecord → Except PyErr (List AgentMetrics)
  | acc, [] => Except.ok acc
  | acc, a :: rest =>
    match processAgent now tiers a with
    | Except.error e => Except.error e
    | Except.ok none => foldAgents now tiers acc rest
    | Except.ok (some m) => foldAgents now tiers (acc ++ [m]) rest

/-- Lines 197-246: the agent-metrics pass. -/
def agentPhase (now : Rat) (tiers : List TierRecord) (agents : List AgentRecord) :
    Except PyErr (List AgentMetrics) :=
  foldAgents now tiers [] agents

/-- A value written to the store: one of the two snapshots. -/
inductive StoreVal where
  | queueSnap (l : List QueueMetrics)
  | agentSnap (l : List AgentMetrics)
  deriving DecidableEq, Repr

/-- `execute_and_process_commands` from parsed tables onward, observed
as the sequence of `redis_client.set` calls performed.  The outer
`try/except` turns any exception into a diagnostic print, so an error
truncates the write sequence: the queue snapshot is written (line 191)
before the agent metrics are computed (lines 198-246), so a failure in
the agent pass leaves exactly one key written.  Failures before line 191
(command execution, parsing, queue pass) leave no key written. -/
def processCycle (now : Rat) (agents : List AgentRecord) (tiers : List TierRecord)
    (queues : List QueueRecord) : List (String × StoreVal) :=
  match queuePhase agents tiers queues with
  | Except.error _ => []
  | Except.ok qms =>
    match agentPhase now tiers agents with
    | Except.error _ => [("Realtime_Queue_Metrics_data", StoreVal.queueSnap qms)]
    | Except.ok ams =>
      [("Realtime_Queue_Metrics_data", StoreVal.queueSnap qms),
       ("Realtime_Agent_Metrics_data", StoreVal.agentSnap ams)]


/-- Equality of modelled Python computation results is decidable, so
concrete runs can be checked by `decide`. -/
instance instDecEqExcept {ε α : Type} [DecidableEq ε] [DecidableEq α] :
    DecidableEq (Except ε α) := fun x y =>
  match x, y with
  | Except.ok a, Except.ok b =>
    if h : a = b then isTrue (by rw [h]) else isFalse (by simp [h])
  | Except.error a, Except.error b =>
    if h : a = b then isTrue (by rw [h]) else isFalse (by simp [h])
  | Except.ok _, Except.error _ => isFalse (by simp)
  | Except.error _, Except.ok _ => isFalse (by simp)

/-
Theorems.  Helper lemmas come first, then one theorem per claim
(with its counterexample and witness where required).
-/

theorem dictGet_nil (k : String) : dictGet [] k = initQueueMetrics := rfl

theorem dictSet_get_self (k : String) (v : QueueMetrics) :
    ∀ d : List (String × QueueMetrics), dictGet (dictSet d k v) k = v := by
  intro d
  induction d with
  | nil => simp [dictSet, dictGet, List.find?]
  | cons p rest ih =>
    by_cases hpk : p.1 = k
    · simp [dictSet, hpk, dictGet, List.find?]
    · simp only [dictSet, hpk, if_false]
      simpa [dictGet, List.find?, hpk] using ih

theorem dictSet_get_ne (k n : String) (v : QueueMetrics) (hkn : k ≠ n) :
    ∀ d : List (String × QueueMetrics), dictGet (dictSet d k v) n = dictGet d n := by
  intro d
  induction d with
  | nil => simp [dictSet, dictGet, List.find?, hkn]
  | cons p rest ih =>
    by_cases hpk : p.1 = k
    · subst hpk
      simp [dictSet, dictGet, List.find?, hkn]
    · simp only [dictSet, hpk, if_false]
      by_cases hpn : p.1 = n
      · simp [dictGet, List.find?, hpn]
      · simpa [dictGet, List.find?, hpn] using ih

/-- Claim C2: for all non-negative integers Handled and Abandoned, the
computed SL60 equals 0 when `Handled + Abandoned = 0`, and equals
`round(Handled * 100 / (Handled + Abandoned), 2)` otherwise (the code
branches on `total > 0`, which coincides with `total ≠ 0` for
non-negative inputs). -/
theorem c2_sl60_spec (h a : Nat) :
    sl60 (h : Int) (a : Int) =
      if h + a = 0 then 0
      else pyRound2 (((h : Rat) * 100) / ((h : Rat) + (a : Rat))) := by
  by_cases hz : h + a = 0
  · have hh : h = 0 := by omega
    have ha : a = 0 := by omega
    subst hh
    subst ha
    simp [sl60]
  · have hpos : (0 : Int) < (h : Int) + (a : Int) := by omega
    rw [if_neg hz]
    unfold sl60
    rw [if_pos hpos]
    push_cast
    rfl

/-- Counterexample to claim C1: in the claimed scenario (queue `Q` with
tiers for agent A, status `Available` / state `Idle`, and agent B,
status `Logged Out`), the `Available` counter of the resulting
QueueMetrics is 1, not 0: agent A satisfies the `Available` predicate
(`status == "Available"` and state neither `"In a queue call"` nor
`"Receiving"`) as well as the `Online` and `Idle` predicates, so the
claimed "all other counters 0" fails. -/
theorem c1_counterexample :
    (queuePhase
        [⟨"A", "callback", "Available", "Idle", "", "", "", "0", "0", "0"⟩,
         ⟨"B", "callback", "Logged Out", "", "", "", "", "0", "0", "0"⟩]
        [⟨"Q", "A", "1", "1"⟩, ⟨"Q", "B", "1", "2"⟩]
        [⟨"Q", "0", "0"⟩]).map (fun l => l.map QueueMetrics.Available) =
      Except.ok [1] ∧ (1 : Int) ≠ 0 := by
  constructor
  · decide
  · decide

/-- Claim C1 (amended): each resolved agent-tier pair increments exactly
the counters whose predicate holds, the predicates being evaluated
independently; for the scenario of the claim the resulting QueueMetrics
is `Online = 1, Idle = 1, LoggedOut = 1, Available = 1` and all other
counters 0 (agent A's status/state satisfy the Available predicate in
addition to Online and Idle). -/
theorem c1_amended :
    queuePhase
        [⟨"A", "callback", "Available", "Idle", "", "", "", "0", "0", "0"⟩,
         ⟨"B", "callback", "Logged Out", "", "", "", "", "0", "0", "0"⟩]
        [⟨"Q", "A", "1", "1"⟩, ⟨"Q", "B", "1", "2"⟩]
        [⟨"Q", "0", "0"⟩] =
      Except.ok [⟨"Q", 1, 0, 0, 0, 1, 1, 1, 0, 0, 0, 0, AHTField.secs 0, 0⟩] := by
  decide

/-- Counterexample to claim C8: a cycle whose agent-metrics pass raises
(here: `int("")` on an empty `last_bridge_start`) has already written the
queue snapshot at that point, so exactly one of the two keys is written —
neither "both" nor "neither". -/
theorem c8_counterexample :
    (processCycle 0 [⟨"bob", "callback", "Available", "Idle", "", "", "", "0", "0", "0"⟩]
        [] []).map Prod.fst = ["Realtime_Queue_Metrics_data"] ∧
    ¬((processCycle 0 [⟨"bob", "callback", "Available", "Idle", "", "", "", "0", "0", "0"⟩]
        [] []).length = 0 ∨
      (processCycle 0 [⟨"bob", "callback", "Available", "Idle", "", "", "", "0", "0", "0"⟩]
        [] []).length = 2) := by
  constructor
  · decide
  · decide

/-- Claim C8 (amended): a poll cycle publishes a prefix of the two
snapshot writes, in order: a failure before the queue-snapshot write
publishes neither key; a failure between the queue write and the agent
write publishes only `Realtime_Queue_Metrics_data` (a partial snapshot
is therefore possible); only a cycle whose agent pass also succeeds
publishes both keys. -/
theorem c8_amended (now : Rat) (agents : List AgentRecord)
    (tiers : List TierRecord) (queues : List QueueRecord) :
    processCycle now agents tiers queues = [] ∨
    (processCycle now agents tiers queues).map Prod.fst =
      ["Realtime_Queue_Metrics_data"] ∨
    (processCycle now agents tiers queues).map Prod.fst =
      ["Realtime_Queue_Metrics_data", "Realtime_Agent_Metrics_data"] := by
  unfold processCycle
  cases queuePhase agents tiers queues with
  | error e => left; rfl
  | ok qms =>
    cases agentPhase now tiers agents with
    | error e => right; left; rfl
    | ok ams => right; right; rfl

theorem emcGo_disjoint (env : String → Except String String) :
    ∀ (commands : List String) (acc : List (String × String)),
      commands.Nodup →
      (∀ c ∈ commands, acc.all (fun p => p.1 ≠ c)) →
      emcGo env acc commands = acc ++ commands.map (fun c => (c, commandOutcome env c)) := by
  intro commands
  induction commands with
  | nil => intro acc _ _; simp [emcGo]
  | cons c rest ih =>
    intro acc hnd hdis
    have hkey : dictInsertStr acc c (commandOutcome env c) =
        acc ++ [(c, commandOutcome env c)] := by
      have hc : acc.all (fun p => p.1 ≠ c) := hdis c (by simp)
      clear hdis
      induction acc with
      | nil => rfl
      | cons p acc2 ih2 =>
        simp only [List.all_cons, Bool.and_eq_true, decide_eq_true_eq] at hc
        simp only [dictInsertStr, hc.1, if_false, List.cons_append, List.cons.injEq, true_and]
        exact ih2 hc.2
    have hstep : emcGo env acc (c :: rest) =
        emcGo env (dictInsertStr acc c (commandOutcome env c)) rest := by
      simp [emcGo, commandOutcome]
    rw [hstep, hkey, ih]
    · simp
    · exact (List.nodup_cons.mp hnd).2
    · intro d hd
      simp only [List.all_append, Bool.and_eq_true, List.all_cons, List.all_nil]
      refine ⟨?_, ?_, trivial⟩
      · have := hdis d (by simp [hd])
        simpa using this
      · have hne : c ≠ d := by
          intro hcd
          exact (List.nodup_cons.mp hnd).1 (hcd ▸ hd)
        simpa using hne

/-- Counterexample to claim C6: the result dict is keyed by command
text, so a sequence with a duplicated command yields fewer entries than
commands — two commands, one result entry. -/
theorem c6_counterexample :
    execute_multiple_commands (fun _ => Except.ok "resp") ["a", "a"] = [("a", "resp")] ∧
    (execute_multiple_commands (fun _ => Except.ok "resp") ["a", "a"]).length ≠
      (["a", "a"] : List String).length := by
  constructor
  · decide
  · decide

/-- Claim C6 (amended): for any ordered sequence of pairwise-distinct
commands, `execute_multiple_commands` returns one entry per command, in
order, each holding that command's response or the stringified error,
and never raises (it is a total function); a failure on one command is
recorded for that command only and the remaining commands are still
attempted.  For duplicated command texts the later outcome overwrites
the earlier one and the entry count is the number of distinct commands. -/
theorem c6_amended (env : String → Except String String) (commands : List String)
    (hnd : commands.Nodup) :
    execute_multiple_commands env commands =
      commands.map (fun c => (c, commandOutcome env c)) := by
  unfold execute_multiple_commands
  rw [emcGo_disjoint env commands [] hnd (by intro c _; simp)]
  simp

/-- Witness for `c6_amended`: three distinct commands, the middle one
failing, produce three entries — two responses and one error value — in
order. -/
theorem c6_amended_witness :
    execute_multiple_commands
        (fun c => if c = "bad" then Except.error "socket timeout" else Except.ok ("resp " ++ c))
        ["one", "bad", "two"] =
      [("one", "resp one"), ("bad", "socket timeout"), ("two", "resp two")] := by
  rw [c6_amended
    (fun c => if c = "bad" then Except.error "socket timeout" else Except.ok ("resp " ++ c))
    ["one", "bad", "two"] (by decide)]
  decide

/-- Counterexample to claim C7: the code raises the same exception
class, `ConnectionError`, for both failure modes — there is no distinct
`AuthenticationError` / `ProtocolError` pair of error kinds; only the
message strings differ. -/
theorem c7_counterexample :
    connect "Content-Type: auth/request\n\n" "Reply-Text: -ERR invalid\n\n" =
      Except.error ⟨"ConnectionError", "Failed to authenticate with FreeSWITCH"⟩ ∧
    connect "Content-Type: text/plain\n\n" "Reply-Text: +OK\n\n" =
      Except.error ⟨"ConnectionError", "Failed to connect to FreeSWITCH"⟩ ∧
    PyErr.cls ⟨"ConnectionError", "Failed to authenticate with FreeSWITCH"⟩ =
      PyErr.cls ⟨"ConnectionError", "Failed to connect to FreeSWITCH"⟩ := by
  refine ⟨?_, ?_, rfl⟩
  · decide
  · decide

/-- Claim C7 (amended): a reply lacking the `Reply-Text: +OK` marker
fails with `ConnectionError("Failed to authenticate with FreeSWITCH")`,
and a first frame lacking `Content-Type: auth/request` fails with
`ConnectionError("Failed to connect to FreeSWITCH")`; the two failure
modes share the exception class and are distinguishable only by their
message strings, which differ. -/
theorem c7_amended (a r : String) :
    (containsSub ("Content-Type: auth/request").data a.data = true →
      containsSub ("Reply-Text: +OK").data r.data = false →
      connect a r =
        Except.error ⟨"ConnectionError", "Failed to authenticate with FreeSWITCH"⟩) ∧
    (containsSub ("Content-Type: auth/request").data a.data = false →
      connect a r =
        Except.error ⟨"ConnectionError", "Failed to connect to FreeSWITCH"⟩) ∧
    ("Failed to authenticate with FreeSWITCH" : String) ≠
      "Failed to connect to FreeSWITCH" := by
  refine ⟨?_, ?_, by decide⟩
  · intro h1 h2
    simp [connect, h1, h2]
  · intro h1
    simp [connect, h1]

/-- Witness for `c7_amended`: both implications fire on concrete
frames. -/
theorem c7_amended_witness :
    connect "Content-Type: auth/request\nReply-Text: go\n\n" "Reply-Text: -ERR bad password\n\n" =
      Except.error ⟨"ConnectionError", "Failed to authenticate with FreeSWITCH"⟩ ∧
    connect "HTTP/1.1 200 OK\n\n" "Reply-Text: +OK\n\n" =
      Except.error ⟨"ConnectionError", "Failed to connect to FreeSWITCH"⟩ := by
  constructor
  · exact (c7_amended "Content-Type: auth/request\nReply-Text: go\n\n"
      "Reply-Text: -ERR bad password\n\n").1 (by decide) (by decide)
  · exact (c7_amended "HTTP/1.1 200 OK\n\n" "Reply-Text: +OK\n\n").2.1 (by decide)

theorem recvLoop_some_zero (chunks : List (List Char)) :
    ∀ resp : List Char, recvLoop resp (some 0) chunks = RecvResult.timeout := by
  induction chunks with
  | nil => intro resp; rfl
  | cons part rest ih =>
    intro resp
    simp only [recvLoop]
    exact ih (resp ++ part)

theorem recvLoop_none_zero (chunks : List (List Char)) :
    ∀ resp : List Char,
      (∀ i, i < chunks.length →
        (findCL (resp ++ concatChunks (chunks.take (i + 1)))).getD 0 = 0) →
      recvLoop resp none chunks = RecvResult.timeout := by
  induction chunks with
  | nil => intro resp _; rfl
  | cons part rest ih =>
    intro resp hstab
    have h0 : (findCL (resp ++ part)).getD 0 = 0 := by
      have := hstab 0 (by simp)
      simpa [concatChunks] using this
    simp only [recvLoop]
    cases hfc : findCL (resp ++ part) with
    | none =>
      apply ih (resp ++ part)
      intro i hi
      have := hstab (i + 1) (by simpa using Nat.succ_lt_succ hi)
      simpa [concatChunks, List.append_assoc] using this
    | some n =>
      have hn : n = 0 := by
        rw [hfc] at h0
        simpa using h0
      subst hn
      simp only [if_neg (by simp : ¬(0 ≠ 0))]
      exact recvLoop_some_zero rest (resp ++ part)

/-- Claim C9: when the header advertises `Content-Length: 0` — that is,
whenever the `Content-Length` match of every accumulated response reads
the value 0 — the break guard `if content_length and ...` is never
satisfied (Python treats the integer 0 as falsy), so under any sequence
of received byte chunks the read loop never returns a frame and
terminates only through the socket timeout exception. -/
theorem c9_zero_content_length (chunks : List (List Char))
    (hstab : ∀ i, i < chunks.length →
      (findCL (concatChunks (chunks.take (i + 1)))).getD 0 = 0) :
    recvLoop [] none chunks = RecvResult.timeout := by
  apply recvLoop_none_zero chunks []
  intro i hi
  simpa using hstab i hi

/-- Witness for `c9_zero_content_length`: a complete frame advertising
`Content-Length: 0` is delivered (plus a further chunk), yet the reader
times out instead of returning it. -/
theorem c9_zero_content_length_witness :
    recvLoop [] none [("Content-Length: 0\n\nabc").data, ("more").data] =
      RecvResult.timeout := by
  exact c9_zero_content_length [("Content-Length: 0\n\nabc").data, ("more").data]
    (by decide)

theorem recvLoop_frame_body (n : Nat) (chunks : List (List Char)) :
    ∀ (resp : List Char) (cl : Option Nat) (r : List Char),
      recvLoop resp cl chunks = RecvResult.frame r →
      (∀ m, cl = some m → m = n) →
      (∀ i, i < chunks.length →
        (findCL (resp ++ concatChunks (chunks.take (i + 1)))).getD n = n) →
      ∃ pr body, splitOnceOn2NL r = some (pr, body) ∧ n ≤ body.length := by
  induction chunks with
  | nil =>
    intro resp cl r hrun _ _
    simp [recvLoop] at hrun
  | cons part rest ih =>
    intro resp cl r hrun hcl hstab
    have hstab0 : (findCL (resp ++ part)).getD n = n := by
      have := hstab 0 (by simp)
      simpa [concatChunks] using this
    have hstabShift : ∀ i, i < rest.length →
        (findCL ((resp ++ part) ++ concatChunks (rest.take (i + 1)))).getD n = n := by
      intro i hi
      have := hstab (i + 1) (by simpa using Nat.succ_lt_succ hi)
      simpa [concatChunks, List.append_assoc] using this
    simp only [recvLoop] at hrun
    have hmain : ∀ m : Nat, m = n →
        (match splitOnceOn2NL (resp ++ part) with
          | some (_, body) =>
            if m ≤ body.length then RecvResult.frame (resp ++ part)
            else recvLoop (resp ++ part) (some m) rest
          | none => RecvResult.indexError) = RecvResult.frame r →
        m ≠ 0 →
        ∃ pr body, splitOnceOn2NL r = some (pr, body) ∧ n ≤ body.length := by
      intro m hmn hrun2 hm0
      cases hsp : splitOnceOn2NL (resp ++ part) with
      | none => rw [hsp] at hrun2; simp at hrun2
      | some pb =>
        obtain ⟨p, body⟩ := pb
        rw [hsp] at hrun2
        have hrun3 : (if m ≤ body.length then RecvResult.frame (resp ++ part)
            else recvLoop (resp ++ part) (some m) rest) = RecvResult.frame r := hrun2
        by_cases hlen : m ≤ body.length
        · rw [if_pos hlen] at hrun3
          have hr : resp ++ part = r := by
            simpa using hrun3
          subst hmn
          exact ⟨p, body, hr ▸ hsp, hlen⟩
        · rw [if_neg hlen] at hrun3
          exact ih (resp ++ part) (some m) r hrun3
            (fun k hk => by injection hk with hk2; omega) hstabShift
    cases cl with
    | some m =>
      have hmn : m = n := hcl m rfl
      simp only [] at hrun
      by_cases hm0 : m = 0
      · subst hm0
        simp only [if_neg (by simp : ¬((0 : Nat) ≠ 0))] at hrun
        rw [recvLoop_some_zero rest (resp ++ part)] at hrun
        simp at hrun
      · rw [if_pos hm0] at hrun
        exact hmain m hmn hrun hm0
    | none =>
      simp only [] at hrun
      cases hfc : findCL (resp ++ part) with
      | none =>
        rw [hfc] at hrun
        simp only [] at hrun
        exact ih (resp ++ part) none r hrun (fun k hk => by simp at hk) hstabShift
      | some m =>
        have hmn : m = n := by
          rw [hfc] at hstab0
          simpa using hstab0
        rw [hfc] at hrun
        simp only [] at hrun
        by_cases hm0 : m = 0
        · subst hm0
          simp only [if_neg (by simp : ¬((0 : Nat) ≠ 0))] at hrun
          rw [recvLoop_some_zero rest (resp ++ part)] at hrun
          simp at hrun
        · rw [if_pos hm0] at hrun
          exact hmain m hmn hrun hm0

/-- Counterexample to claim C5: a frame advertising `Content-Length: 3`
delivered in a single chunk whose body is 6 bytes long is returned
whole — the loop breaks on `len(body) >= content_length` and returns the
entire accumulated response, so the body portion has length 6, not
exactly 3. -/
theorem c5_counterexample :
    recvLoop [] none [("Content-Length: 3\n\nabcdef").data] =
      RecvResult.frame ("Content-Length: 3\n\nabcdef").data ∧
    findCL ("Content-Length: 3\n\nabcdef").data = some 3 ∧
    splitOnceOn2NL ("Content-Length: 3\n\nabcdef").data =
      some (("Content-Length: 3").data, ("abcdef").data) ∧
    ("abcdef").data.length ≠ 3 := by
  refine ⟨by decide, by decide, by decide, by decide⟩

/-- Claim C5 (amended): for every run of the Frame Reader that returns a
frame, with every observed `Content-Length` match reading the value `n`,
the body portion after the first blank-line separator has length at
least `n` — but it may be longer, since the loop breaks on `>=` and
returns every byte received. -/
theorem c5_body_at_least (chunks : List (List Char)) (r : List Char) (n : Nat)
    (hrun : recvLoop [] none chunks = RecvResult.frame r)
    (hstab : ∀ i, i < chunks.length →
      (findCL (concatChunks (chunks.take (i + 1)))).getD n = n) :
    ∃ pr body, splitOnceOn2NL r = some (pr, body) ∧ n ≤ body.length := by
  apply recvLoop_frame_body n chunks [] none r hrun
  · intro m hm
    simp at hm
  · intro i hi
    simpa using hstab i hi

/-- Witness for `c5_body_at_least`: a frame advertising
`Content-Length: 3` delivered across two chunks yields a body of length
at least 3. -/
theorem c5_body_at_least_witness :
    ∃ pr body,
      splitOnceOn2NL (("Content-Length: 3\n\nab").data ++ ("c").data) =
        some (pr, body) ∧ 3 ≤ body.length := by
  exact c5_body_at_least [("Content-Length: 3\n\nab").data, ("c").data]
    (("Content-Length: 3\n\nab").data ++ ("c").data) 3 (by decide) (by decide)

theorem hasDoubleNL_tail (c : Char) (l : List Char)
    (h : hasDoubleNL (c :: l) = false) : hasDoubleNL l = false := by
  cases l with
  | nil => rfl
  | cons d rest =>
    by_cases hcd : c = '\n' ∧ d = '\n'
    · simp [hasDoubleNL, hcd] at h
    · simpa [hasDoubleNL, hcd] using h

theorem splitOnceOn2NL_marker (rest : List Char) :
    ∀ hs : List Char, hasDoubleNL (hs ++ ['\n']) = false →
      splitOnceOn2NL (hs ++ '\n' :: '\n' :: rest) = some (hs, rest) := by
  intro hs
  induction hs with
  | nil => intro _; simp [splitOnceOn2NL]
  | cons c hs2 ih =>
    intro hno
    have htail : hasDoubleNL (hs2 ++ ['\n']) = false :=
      hasDoubleNL_tail c (hs2 ++ ['\n']) (by simpa using hno)
    have ihres := ih htail
    cases hs2 with
    | nil =>
      have hc2 : c ≠ '\n' := by
        intro hceq
        simp [hceq, hasDoubleNL] at hno
      simp only [List.cons_append, List.nil_append] at ihres ⊢
      rw [splitOnceOn2NL.eq_3, if_neg (by simp [hc2]), ihres]
    | cons d hs3 =>
      have hcd : ¬(c = '\n' ∧ d = '\n') := by
        intro hand
        simp [hasDoubleNL, hand.1, hand.2] at hno
      simp only [List.cons_append] at ihres ⊢
      rw [splitOnceOn2NL.eq_3, if_neg hcd, ihres]

theorem splitOnChar_no_sep (sep : Char) :
    ∀ l : List Char, sep ∉ l → splitOnChar sep l = [l] := by
  intro l
  induction l with
  | nil => intro _; rfl
  | cons c rest ih =>
    intro hmem
    have hc : ¬(c = sep) := fun h => hmem (by simp [h])
    have hrest : sep ∉ rest := fun h => hmem (by simp [h])
    rw [splitOnChar]
    simp only [hc, if_false, ih hrest]

theorem splitOnChar_append_sep (sep : Char) (t : List Char) :
    ∀ l : List Char, sep ∉ l →
      splitOnChar sep (l ++ sep :: t) = l :: splitOnChar sep t := by
  intro l
  induction l with
  | nil => intro _; simp [splitOnChar]
  | cons c rest ih =>
    intro hmem
    have hc : ¬(c = sep) := fun h => hmem (by simp [h])
    have hrest : sep ∉ rest := fun h => hmem (by simp [h])
    simp only [List.cons_append]
    rw [splitOnChar]
    simp only [hc, if_false, ih hrest]

theorem splitOnChar_joinLines :
    ∀ ls : List (List Char), (∀ l ∈ ls, ('\n') ∉ l) → ls ≠ [] →
      splitOnChar '\n' (joinLines ls) = ls := by
  intro ls
  induction ls with
  | nil => intro _ hne; exact absurd rfl hne
  | cons l ls2 ih =>
    intro hmem _
    cases ls2 with
    | nil =>
      exact splitOnChar_no_sep '\n' l (hmem l (by simp))
    | cons l2 ls3 =>
      have hjoin : joinLines (l :: l2 :: ls3) = l ++ '\n' :: joinLines (l2 :: ls3) := rfl
      rw [hjoin, splitOnChar_append_sep '\n' (joinLines (l2 :: ls3)) l (hmem l (by simp))]
      rw [ih (fun x hx => hmem x (by simp [hx])) (by simp)]

theorem filterMap_nonempty_rows (g : List Char → RawRecord) :
    ∀ rs : List (List Char), (∀ r ∈ rs, r ≠ []) →
      rs.filterMap (fun r => if r.isEmpty then none else some (g r)) = rs.map g := by
  intro rs
  induction rs with
  | nil => intro _; rfl
  | cons r rs2 ih =>
    intro hmem
    have hr2 : r.isEmpty = false := by
      simpa [List.isEmpty_iff] using hmem r (by simp)
    simp only [List.filterMap_cons, List.map_cons, hr2, Bool.false_eq_true, if_false]
    rw [ih (fun x hx => hmem x (by simp [hx]))]

theorem parse_response_of_split (resp pre rest : List Char)
    (hsplit : splitOnceOn2NL resp = some (pre, rest)) :
    parse_response resp =
      (match splitOnChar '\n' (pyStrip rest) with
       | [] => Except.ok []
       | header :: rows =>
         Except.ok (rows.filterMap (fun r =>
           if r.isEmpty then none
           else some ((splitOnChar '|' header).zip (splitOnChar '|' r))))) := by
  unfold parse_response
  rw [hsplit]

/-- Claim C4: the Tabular Response Parser, applied to a frame body
containing a pipe-delimited header row, N data rows and one synthetic
trailing total row, returns exactly the N data records (each the zip of
the header fields with the row cells) in the original row and column
order — the final row is dropped unconditionally by the caller's
`.pop()`.  The hypotheses state well-formedness of the frame: the header
section contains no blank line, every table line is non-empty and
newline-free, and the table carries no leading/trailing whitespace
(which `.strip()` would remove). -/
theorem c4_tabular (headerSec headerLine totalLine : List Char)
    (rowLines : List (List Char))
    (hhs : hasDoubleNL (headerSec ++ ['\n']) = false)
    (hlines : ∀ l ∈ headerLine :: (rowLines ++ [totalLine]), ('\n') ∉ l ∧ l ≠ [])
    (hstrip : pyStrip (joinLines (headerLine :: (rowLines ++ [totalLine]))) =
      joinLines (headerLine :: (rowLines ++ [totalLine]))) :
    parseTableDropTotal
        (headerSec ++ '\n' :: '\n' :: joinLines (headerLine :: (rowLines ++ [totalLine]))) =
      Except.ok (rowLines.map (fun r =>
        (splitOnChar '|' headerLine).zip (splitOnChar '|' r))) := by
  have h1 := parse_response_of_split _ headerSec
    (joinLines (headerLine :: (rowLines ++ [totalLine])))
    (splitOnceOn2NL_marker (joinLines (headerLine :: (rowLines ++ [totalLine]))) headerSec hhs)
  rw [hstrip] at h1
  rw [splitOnChar_joinLines (headerLine :: (rowLines ++ [totalLine]))
    (fun l hl => (hlines l hl).1) (by simp)] at h1
  have h3 : parse_response
      (headerSec ++ '\n' :: '\n' :: joinLines (headerLine :: (rowLines ++ [totalLine]))) =
      Except.ok ((rowLines ++ [totalLine]).filterMap (fun r =>
        if r.isEmpty then none
        else some ((splitOnChar '|' headerLine).zip (splitOnChar '|' r)))) := h1
  rw [filterMap_nonempty_rows (fun r => (splitOnChar '|' headerLine).zip (splitOnChar '|' r))
    (rowLines ++ [totalLine]) (fun r hr => (hlines r (by simp [hr])).2)] at h3
  unfold parseTableDropTotal
  rw [h3]
  have hne : ((rowLines ++ [totalLine]).map (fun r =>
      (splitOnChar '|' headerLine).zip (splitOnChar '|' r))).isEmpty = false := by
    simp
  simp only [hne, Bool.false_eq_true, if_false]
  rw [List.map_append]
  simp

/-- Witness for `c4_tabular`: a concrete agent-list frame with two data
rows and the synthetic total row parses to exactly those two records in
order. -/
theorem c4_tabular_witness :
    parseTableDropTotal
        (("Content-Type: api/response\nContent-Length: 42").data ++ '\n' :: '\n' ::
          joinLines [("name|status").data, ("a1|Available").data,
            ("a2|Logged Out").data, ("2 total.").data]) =
      Except.ok ([("a1|Available").data, ("a2|Logged Out").data].map (fun r =>
        (splitOnChar '|' ("name|status").data).zip (splitOnChar '|' r))) := by
  exact c4_tabular ("Content-Type: api/response\nContent-Length: 42").data
    ("name|status").data ("2 total.").data
    [("a1|Available").data, ("a2|Logged Out").data]
    (by decide) (by decide) (by decide)

theorem filter_eq_single {α : Type} (p : α → Bool) :
    ∀ (l : List α) (a : α), l.filter p = [a] →
      ∃ l1 l2, l = l1 ++ a :: l2 ∧ (∀ x ∈ l1, p x = false) ∧
        (∀ x ∈ l2, p x = false) ∧ p a = true := by
  intro l
  induction l with
  | nil => intro a h; simp at h
  | cons x l2 ih =>
    intro a h
    cases hx : p x with
    | true =>
      rw [List.filter_cons_of_pos hx] at h
      have hxa : x = a := by
        injection h with h1 _
      have hnil : l2.filter p = [] := by
        injection h with _ h2
      have hall : ∀ y ∈ l2, p y = false := by
        intro y hy
        by_contra hne
        have hpy : p y = true := by
          cases hpy2 : p y with
          | true => rfl
          | false => exact absurd hpy2 hne
        have : y ∈ l2.filter p := List.mem_filter.mpr ⟨hy, hpy⟩
        rw [hnil] at this
        simp at this
      exact ⟨[], l2, by simp [hxa], by simp, hall, hxa ▸ hx⟩
    | false =>
      rw [List.filter_cons_of_neg (by simp [hx])] at h
      obtain ⟨l1, l2', heq, hl1, hl2, hpa⟩ := ih a h
      exact ⟨x :: l1, l2', by simp [heq], by
        intro y hy
        rcases List.mem_cons.mp hy with hyx | hyl
        · rw [hyx]; exact hx
        · exact hl1 y hyl, hl2, hpa⟩

theorem foldQueues_append (agents : List AgentRecord) (tiers : List TierRecord) :
    ∀ (l1 l2 : List QueueRecord) (st : QPState),
      foldQueues agents tiers st (l1 ++ l2) =
        (match foldQueues agents tiers st l1 with
         | Except.error e => Except.error e
         | Except.ok st2 => foldQueues agents tiers st2 l2) := by
  intro l1
  induction l1 with
  | nil => intro l2 st; rfl
  | cons q qs ih =>
    intro l2 st
    simp only [List.cons_append, foldQueues]
    cases processQueue agents tiers st q with
    | error e => rfl
    | ok st2 => exact ih l2 st2

theorem processQueue_shape (agents : List AgentRecord) (tiers : List TierRecord)
    (st : QPState) (q : QueueRecord) (st2 : QPState)
    (h : processQueue agents tiers st q = Except.ok st2) :
    st2 = st ∨
    ∃ qm2, st2 = ⟨dictSet st.dict q.name qm2, st.keys ++ [q.name]⟩ := by
  unfold processQueue at h
  by_cases hany : tiers.any (fun t => t.queue = q.name)
  · rw [if_pos hany] at h
    cases hh : pyIntE q.calls_answered with
    | error e => rw [hh] at h; simp at h
    | ok hv =>
      rw [hh] at h
      simp only [] at h
      cases hab : pyIntE q.calls_abandoned with
      | error e => rw [hab] at h; simp at h
      | ok abv =>
        rw [hab] at h
        simp only [] at h
        cases hft : foldTiers q.name agents (seedQM (dictGet st.dict q.name) hv abv, 0)
            (tiers.filter (fun t => t.queue = q.name)) with
        | error e => rw [hft] at h; simp at h
        | ok pr =>
          obtain ⟨qm1, cnt⟩ := pr
          rw [hft] at h
          simp only [] at h
          cases hfin : finishAHT qm1 cnt with
          | error e => rw [hfin] at h; simp at h
          | ok qm2 =>
            rw [hfin] at h
            simp only [] at h
            right
            exact ⟨qm2, by injection h with h2; rw [← h2]⟩
  · rw [if_neg hany] at h
    left
    injection h with h2
    rw [h2]

theorem foldQueues_preserve (agents : List AgentRecord) (tiers : List TierRecord)
    (n : String) :
    ∀ (l : List QueueRecord) (st stF : QPState),
      (∀ p ∈ l, p.name ≠ n) →
      foldQueues agents tiers st l = Except.ok stF →
      dictGet stF.dict n = dictGet st.dict n ∧ ∃ ks, stF.keys = st.keys ++ ks := by
  intro l
  induction l with
  | nil =>
    intro st stF _ h
    have : st = stF := by injection h
    rw [this]
    exact ⟨rfl, [], by simp⟩
  | cons q qs ih =>
    intro st stF hn h
    simp only [foldQueues] at h
    cases hpq : processQueue agents tiers st q with
    | error e => rw [hpq] at h; simp at h
    | ok st2 =>
      rw [hpq] at h
      simp only [] at h
      have hrest := ih st2 stF (fun p hp => hn p (by simp [hp])) h
      rcases processQueue_shape agents tiers st q st2 hpq with hsame | ⟨qm2, hset⟩
      · rw [hsame] at hrest
        exact hrest
      · have hqn : q.name ≠ n := hn q (by simp)
        constructor
        · rw [hrest.1, hset]
          exact dictSet_get_ne q.name n qm2 hqn st.dict
        · obtain ⟨ks, hks⟩ := hrest.2
          rw [hset] at hks
          exact ⟨[q.name] ++ ks, by simpa using hks⟩

theorem queuePhase_entry (agents : List AgentRecord) (tiers : List TierRecord)
    (queues : List QueueRecord) (q : QueueRecord) (out : List QueueMetrics)
    (h ab : Int)
    (hqp : queuePhase agents tiers queues = Except.ok out)
    (hfil : queues.filter (fun p => p.name = q.name) = [q])
    (hany : tiers.any (fun t => t.queue = q.name) = true)
    (hh : pyIntE q.calls_answered = Except.ok h)
    (hab : pyIntE q.calls_abandoned = Except.ok ab) :
    ∃ qm1 cnt qm2,
      foldTiers q.name agents (seedQM initQueueMetrics h ab, 0)
        (tiers.filter (fun t => t.queue = q.name)) = Except.ok (qm1, cnt) ∧
      finishAHT qm1 cnt = Except.ok qm2 ∧
      qm2 ∈ out := by
  obtain ⟨pre, post, hsplit, hpre, hpost, _⟩ :=
    filter_eq_single (fun p => p.name = q.name) queues q hfil
  have hpre2 : ∀ p ∈ pre, p.name ≠ q.name := by
    intro p hp
    have := hpre p hp
    simpa using this
  have hpost2 : ∀ p ∈ post, p.name ≠ q.name := by
    intro p hp
    have := hpost p hp
    simpa using this
  unfold queuePhase at hqp
  cases hfold : foldQueues agents tiers ⟨[], []⟩ queues with
  | error e => rw [hfold] at hqp; simp at hqp
  | ok stF =>
    rw [hfold] at hqp
    simp only [] at hqp
    have hout : out = stF.keys.map (dictGet stF.dict) := by
      injection hqp with h2
      rw [h2]
    rw [hsplit] at hfold
    rw [foldQueues_append] at hfold
    cases hfold1 : foldQueues agents tiers ⟨[], []⟩ pre with
    | error e => rw [hfold1] at hfold; simp at hfold
    | ok st1 =>
      rw [hfold1] at hfold
      simp only [] at hfold
      have hst1 : dictGet st1.dict q.name = initQueueMetrics := by
        have := (foldQueues_preserve agents tiers q.name pre ⟨[], []⟩ st1 hpre2 hfold1).1
        simpa [dictGet_nil] using this
      simp only [foldQueues] at hfold
      cases hpq : processQueue agents tiers st1 q with
      | error e => rw [hpq] at hfold; simp at hfold
      | ok st2 =>
        rw [hpq] at hfold
        simp only [] at hfold
        unfold processQueue at hpq
        rw [if_pos hany, hh] at hpq
        simp only [] at hpq
        rw [hab] at hpq
        simp only [] at hpq
        rw [hst1] at hpq
        cases hft : foldTiers q.name agents (seedQM initQueueMetrics h ab, 0)
            (tiers.filter (fun t => t.queue = q.name)) with
        | error e => rw [hft] at hpq; simp at hpq
        | ok pr =>
          obtain ⟨qm1, cnt⟩ := pr
          rw [hft] at hpq
          simp only [] at hpq
          cases hfin : finishAHT qm1 cnt with
          | error e => rw [hfin] at hpq; simp at hpq
          | ok qm2 =>
            rw [hfin] at hpq
            simp only [] at hpq
            have hst2 : st2 = ⟨dictSet st1.dict q.name qm2, st1.keys ++ [q.name]⟩ := by
              injection hpq with h2
              rw [← h2]
            have hpres := foldQueues_preserve agents tiers q.name post st2 stF hpost2 hfold
            have hdict : dictGet stF.dict q.name = qm2 := by
              rw [hpres.1, hst2]
              exact dictSet_get_self q.name qm2 st1.dict
            have hmem : q.name ∈ stF.keys := by
              obtain ⟨ks, hks⟩ := hpres.2
              rw [hks, hst2]
              simp
            refine ⟨qm1, cnt, qm2, rfl, hfin, ?_⟩
            rw [hout]
            rw [← hdict]
            exact List.mem_map_of_mem (dictGet stF.dict) hmem

theorem foldTiers_unresolved (qname : String) (agents : List AgentRecord) :
    ∀ (ts : List TierRecord) (st : QueueMetrics × Nat),
      (∀ t ∈ ts, agents.find? (fun a => a.name = t.agent) = none) →
      foldTiers qname agents st ts = Except.ok st := by
  intro ts
  induction ts with
  | nil => intro st _; rfl
  | cons t ts2 ih =>
    intro st hun
    simp only [foldTiers, processTier, hun t (by simp)]
    exact ih st (fun x hx => hun x (by simp [hx]))

theorem foldTiers_preserve (qname : String) (agents : List AgentRecord) :
    ∀ (ts : List TierRecord) (qm : QueueMetrics) (cnt : Nat),
      (∀ t ∈ ts,
        match agents.find? (fun a => a.name = t.agent) with
        | some a => pyInt a.last_bridge_start = none ∨ pyInt a.last_bridge_end = none
        | none => True) →
      ∃ qm2, foldTiers qname agents (qm, cnt) ts = Except.ok (qm2, cnt) ∧
        qm2.AHT = qm.AHT ∧ qm2.Handled = qm.Handled ∧ qm2.Abandoned = qm.Abandoned ∧
        qm2.SL60 = qm.SL60 := by
  intro ts
  induction ts with
  | nil => intro qm cnt _; exact ⟨qm, rfl, rfl, rfl, rfl, rfl⟩
  | cons t ts2 ih =>
    intro qm cnt hnn
    have ht := hnn t (by simp)
    cases hfind : agents.find? (fun a => a.name = t.agent) with
    | none =>
      obtain ⟨qm2, hfold, hp1, hp2, hp3, hp4⟩ :=
        ih qm cnt (fun x hx => hnn x (by simp [hx]))
      refine ⟨qm2, ?_, hp1, hp2, hp3, hp4⟩
      simp only [foldTiers, processTier, hfind]
      exact hfold
    | some a =>
      rw [hfind] at ht
      have hstep : processTier qname agents (qm, cnt) t =
          Except.ok (applyAgentCounters qname qm a, cnt) := by
        simp only [processTier, hfind]
        rcases ht with h1 | h2
        · simp [applyAgentAHT, h1]
        · cases hlbs : pyInt a.last_bridge_start with
          | none => simp [applyAgentAHT, hlbs]
          | some s => simp [applyAgentAHT, hlbs, h2]
      obtain ⟨qm2, hfold, hp1, hp2, hp3, hp4⟩ :=
        ih (applyAgentCounters qname qm a) cnt (fun x hx => hnn x (by simp [hx]))
      refine ⟨qm2, ?_, ?_, ?_, ?_, ?_⟩
      · simp only [foldTiers, hstep]
        exact hfold
      · rw [hp1]; simp [applyAgentCounters]
      · rw [hp2]; simp [applyAgentCounters]
      · rw [hp3]; simp [applyAgentCounters]
      · rw [hp4]; simp [applyAgentCounters]

/-- Claim C10: a queue that has at least one tier row but none of whose
tier rows resolves to an agent in the agent table still yields a
published QueueMetrics entry whose `Name` is the empty string (the name
is assigned only inside the resolved-agent branch), while `Handled`,
`Abandoned` and `SL60` are populated from the queue record (and the AHT
accumulator stays at the integer 0). -/
theorem c10_unresolved_queue (agents : List AgentRecord) (tiers : List TierRecord)
    (queues : List QueueRecord) (q : QueueRecord) (out : List QueueMetrics)
    (h ab : Int)
    (hqp : queuePhase agents tiers queues = Except.ok out)
    (hfil : queues.filter (fun p => p.name = q.name) = [q])
    (hany : tiers.any (fun t => t.queue = q.name) = true)
    (hh : pyIntE q.calls_answered = Except.ok h)
    (hab : pyIntE q.calls_abandoned = Except.ok ab)
    (hunres : ∀ t ∈ tiers, t.queue = q.name →
      agents.find? (fun a => a.name = t.agent) = none) :
    ∃ m, m ∈ out ∧ m.Name = "" ∧ m.Handled = h ∧ m.Abandoned = ab ∧
      m.SL60 = sl60 h ab ∧ m.AHT = AHTField.secs 0 := by
  obtain ⟨qm1, cnt, qm2, hft, hfin, hmem⟩ :=
    queuePhase_entry agents tiers queues q out h ab hqp hfil hany hh hab
  have hun2 : ∀ t ∈ tiers.filter (fun t => t.queue = q.name),
      agents.find? (fun a => a.name = t.agent) = none := by
    intro t ht
    have hmf := List.mem_filter.mp ht
    exact hunres t hmf.1 (by simpa using hmf.2)
  rw [foldTiers_unresolved q.name agents (tiers.filter (fun t => t.queue = q.name))
    (seedQM initQueueMetrics h ab, 0) hun2] at hft
  have hqm1 : qm1 = seedQM initQueueMetrics h ab ∧ cnt = 0 := by
    injection hft with h2
    exact ⟨congrArg Prod.fst h2.symm, congrArg Prod.snd h2.symm⟩
  obtain ⟨hqm1a, hcnt⟩ := hqm1
  rw [hqm1a, hcnt] at hfin
  have hqm2 : qm2 = seedQM initQueueMetrics h ab := by
    unfold finishAHT at hfin
    simp at hfin
    exact hfin.symm
  rw [hqm2] at hmem
  exact ⟨seedQM initQueueMetrics h ab, hmem, rfl, rfl, rfl, rfl, rfl⟩

/-- Counterexample to claim C3: in the claimed scenario (queue `Sales`,
agents `alice` and `bob` with no bridge timestamps), the published
QueueMetrics AHT field is the integer 0 — the untouched accumulator —
which is a different JSON value from the string `"00:00:00"`: the
formatting branch `convert_seconds_to_hhmmss` runs only when
`aht_agent_count > 0`. -/
theorem c3_counterexample :
    (queuePhase
        [⟨"alice", "callback", "Available", "Idle", "", "", "", "0", "0", "0"⟩,
         ⟨"bob", "callback", "On Break", "", "", "", "", "0", "0", "0"⟩]
        [⟨"Sales", "alice", "1", "1"⟩, ⟨"Sales", "bob", "1", "2"⟩]
        [⟨"Sales", "0", "0"⟩]).map (fun l => l.map QueueMetrics.AHT) =
      Except.ok [AHTField.secs 0] ∧
    AHTField.secs 0 ≠ AHTField.fmt "00:00:00" := by
  constructor
  · decide
  · decide

/-- Claim C3 (amended): for every queue whose resolved agents contribute
no numeric bridge pair, the published QueueMetrics AHT field remains the
integer 0 (the unformatted zero accumulator) — not the formatted string
`"00:00:00"` — while `Handled` and `Abandoned` are populated from the
queue record; in the Sales scenario the counters are `Online = 2,
Idle = 1, OnBreak = 1, Available = 1` and `AHT` is the integer 0. -/
theorem c3_aht_unformatted (agents : List AgentRecord) (tiers : List TierRecord)
    (queues : List QueueRecord) (q : QueueRecord) (out : List QueueMetrics)
    (h ab : Int)
    (hqp : queuePhase agents tiers queues = Except.ok out)
    (hfil : queues.filter (fun p => p.name = q.name) = [q])
    (hany : tiers.any (fun t => t.queue = q.name) = true)
    (hh : pyIntE q.calls_answered = Except.ok h)
    (hab : pyIntE q.calls_abandoned = Except.ok ab)
    (hnn : ∀ t ∈ tiers, t.queue = q.name →
      ((agents.find? (fun a => a.name = t.agent)).all
        (fun a => (pyInt a.last_bridge_start).isNone ||
          (pyInt a.last_bridge_end).isNone)) = true) :
    ∃ m, m ∈ out ∧ m.AHT = AHTField.secs 0 ∧ m.Handled = h ∧ m.Abandoned = ab := by
  obtain ⟨qm1, cnt, qm2, hft, hfin, hmem⟩ :=
    queuePhase_entry agents tiers queues q out h ab hqp hfil hany hh hab
  have hnn2 : ∀ t ∈ tiers.filter (fun t => t.queue = q.name),
      match agents.find? (fun a => a.name = t.agent) with
      | some a => pyInt a.last_bridge_start = none ∨ pyInt a.last_bridge_end = none
      | none => True := by
    intro t ht
    have hmf := List.mem_filter.mp ht
    have hb := hnn t hmf.1 (by simpa using hmf.2)
    cases hfind : agents.find? (fun a => a.name = t.agent) with
    | none => simp [hfind]
    | some a =>
      rw [hfind] at hb
      simp only [Option.all] at hb
      rw [Bool.or_eq_true] at hb
      simp only [hfind]
      rcases hb with h1 | h2
      · exact Or.inl (Option.isNone_iff_eq_none.mp h1)
      · exact Or.inr (Option.isNone_iff_eq_none.mp h2)
  obtain ⟨qm2', hfold, hp1, hp2, hp3, hp4⟩ :=
    foldTiers_preserve q.name agents (tiers.filter (fun t => t.queue = q.name))
      (seedQM initQueueMetrics h ab) 0 hnn2
  rw [hfold] at hft
  have hqm1 : qm1 = qm2' ∧ cnt = 0 := by
    injection hft with h2
    exact ⟨congrArg Prod.fst h2.symm, congrArg Prod.snd h2.symm⟩
  rw [hqm1.1, hqm1.2] at hfin
  have hqm2 : qm2 = qm2' := by
    unfold finishAHT at hfin
    simp at hfin
    exact hfin.symm
  refine ⟨qm2, hmem, ?_, ?_, ?_⟩
  · rw [hqm2, hp1]
    rfl
  · rw [hqm2, hp2]
    rfl
  · rw [hqm2, hp3]
    rfl

/-- Witness for `c3_aht_unformatted`: the Sales scenario — the published
entry has AHT equal to the integer 0 and the queue totals 0/0. -/
theorem c3_aht_unformatted_witness :
    ∃ m, m ∈ ([⟨"Sales", 2, 0, 1, 0, 0, 1, 1, 0, 0, 0, 0, AHTField.secs 0, 0⟩] :
        List QueueMetrics) ∧
      m.AHT = AHTField.secs 0 ∧ m.Handled = 0 ∧ m.Abandoned = 0 := by
  exact c3_aht_unformatted
    [⟨"alice", "callback", "Available", "Idle", "", "", "", "0", "0", "0"⟩,
     ⟨"bob", "callback", "On Break", "", "", "", "", "0", "0", "0"⟩]
    [⟨"Sales", "alice", "1", "1"⟩, ⟨"Sales", "bob", "1", "2"⟩]
    [⟨"Sales", "0", "0"⟩] ⟨"Sales", "0", "0"⟩
    [⟨"Sales", 2, 0, 1, 0, 0, 1, 1, 0, 0, 0, 0, AHTField.secs 0, 0⟩] 0 0
    (by decide) (by decide) (by decide) (by decide) (by decide) (by decide)

/-- Witness for `c10_unresolved_queue`: a queue whose only tier
references an agent absent from the agent table still yields an entry
with empty `Name`, `Handled = 4`, `Abandoned = 1` and
`SL60 = sl60 4 1`. -/
theorem c10_unresolved_queue_witness :
    ∃ m, m ∈ ([⟨"", 0, 0, 0, 0, 0, 0, 0, 0, 0, 4, 1, AHTField.secs 0, sl60 4 1⟩] :
        List QueueMetrics) ∧
      m.Name = "" ∧ m.Handled = 4 ∧ m.Abandoned = 1 ∧ m.SL60 = sl60 4 1 ∧
      m.AHT = AHTField.secs 0 := by
  exact c10_unresolved_queue [] [⟨"Q", "ghost", "1", "1"⟩] [⟨"Q", "4", "1"⟩]
    ⟨"Q", "4", "1"⟩
    [⟨"", 0, 0, 0, 0, 0, 0, 0, 0, 0, 4, 1, AHTField.secs 0, sl60 4 1⟩] 4 1
    rfl (by decide) (by decide) (by decide) (by decide) (by decide)
